import Mathlib

/-!
Verification of the `PrecomputedAlms` component of `so_pysm_models`
(`so_pysm_models/alms.py`).

The component loads precomputed spherical-harmonic coefficients, synthesizes
one pixelized map at construction time (on a HEALPix grid when `target_nside`
is given, on a rectangular grid when `target_shape`/`target_wcs` are given),
and `signal` returns that cached map tiled over the requested frequencies and
multiplied by a per-frequency unit-conversion factor.

Shallow embedding conventions:
* numpy arrays are a shape (list of dimensions) together with row-major flat
  rational data (`NDArray`);
* the external collaborators (healpy's `read_alm` and `alm2map`, pixell's
  `curvedsky.alm2map`, pysm's `convert_units`) are injected as pure functions
  (`Externals`);
* a numpy broadcasting failure and the constructor's exceptions are modelled
  with `Option`/`Except`.
-/

/-- Model of a numpy ndarray: a shape and the row-major flat data. -/
structure NDArray where
  shape : List Nat
  data : List ℚ
  deriving DecidableEq

/-- Size of one slice along the leading axis (the product of the trailing
dimensions), as used by indexing with `out[0]`. -/
def NDArray.sliceSize (a : NDArray) : Nat := a.shape.tail.prod

/-- Python `len(out)`: the length of the leading axis. -/
def NDArray.len (a : NDArray) : Nat := a.shape.headD 0

/-- Python `out[0]`: the first slice along the leading axis. -/
def NDArray.first (a : NDArray) : NDArray :=
  ⟨a.shape.tail, a.data.take a.sliceSize⟩

/-- `np.tile(a, (n, 1, 1))` for arrays of at most three dimensions (the only
arity arising in this module): the array is promoted to three dimensions by
prepending length-one axes, and then repeated `n` times along axis 0, which
concatenates `n` copies of the flat data.  Note that for an array that is
already three-dimensional this multiplies the length of the existing leading
axis by `n` instead of adding a new axis. -/
def npTile311 (a : NDArray) (n : Nat) : NDArray :=
  let padded := List.replicate (3 - a.shape.length) 1 ++ a.shape
  ⟨n * padded.headD 1 :: padded.tail, (List.replicate n a.data).flatten⟩

/-- numpy's elementwise `a * f.reshape (n, 1, 1)` for a three-dimensional `a`
of shape `(d0, d1, d2)`: the leading axes must agree or one of them must be 1
(otherwise numpy raises a broadcasting `ValueError`, modelled by `none`);
entry `(i, j, k)` of the result is `a (i', j, k) * f i'` where a length-one
axis is indexed at 0. -/
def broadcastMul311 (a : NDArray) (f : List ℚ) : Option NDArray :=
  match a.shape with
  | [d0, d1, d2] =>
      let n := f.length
      if d0 = n ∨ d0 = 1 ∨ n = 1 then
        let m := if d0 = n then d0 else if d0 = 1 then n else d0
        let sz := d1 * d2
        some ⟨[m, d1, d2],
          ((List.range m).map (fun i =>
            ((a.data.drop ((if d0 = 1 then 0 else i) * sz)).take sz).map
              (fun x => x * f.getD (if n = 1 then 0 else i) 0))).flatten⟩
      else none
  | _ => none

/-- Opaque token standing for the complex alm coefficients returned by
`healpy.read_alm`; the embedded code only ever passes them on to the injected
synthesis functions. -/
structure AlmData where
  id : Nat
  deriving DecidableEq

/-- Opaque token standing for an astropy/pixell world coordinate system. -/
structure Wcs where
  id : Nat
  deriving DecidableEq

/-- The external collaborators of the module, injected as pure functions:
`read_alm fname hdus` models `healpy.read_alm(fname, hdu=hdus)` (composed
with the `np.complex128` cast), `hp_alm2map alm nside` models
`healpy.alm2map`, `curvedsky_alm2map_data alm shape` models the in-place
`pixell.curvedsky.alm2map(alm, buffer, spin=[0, 2])` fill of a buffer of the
given shape (in-place filling cannot change the buffer's shape, so only the
resulting flat data is injected), and `convert_units inU outU nu` models
`pysm.convert_units` at one frequency. -/
structure Externals where
  read_alm : String → List Nat → AlmData
  hp_alm2map : AlmData → Nat → NDArray
  curvedsky_alm2map_data : AlmData → List Nat → List ℚ
  convert_units : String → String → ℚ → ℚ

/-- Number of map components: 3 (I, Q, U) when polarization is simulated,
else 1 (intensity only), as in `3 if self.has_polarization else 1`. -/
def nCompOf (has_polarization : Bool) : Nat := if has_polarization then 3 else 1

/-- The fields stored on a constructed `PrecomputedAlms` object. -/
structure PrecomputedAlms where
  nside : Option Nat
  shape : Option (List Nat)
  wcs : Option Wcs
  filename : String
  input_units : String
  pixel_indices : Option (List Nat)
  has_polarization : Bool
  output_map : NDArray
  deriving DecidableEq

/-- The exceptions the constructor can raise: the `assert` in the rectangular
branch, and the (dead) final `ValueError`. -/
inductive InitError where
  | assertionError
  | valueError (msg : String)
  deriving DecidableEq

/-- `PrecomputedAlms.__init__`: store the configuration, read the alms
(HDUs 1-3 with polarization, HDU 1 without), then dispatch on the grid
descriptor exactly as the source does: `if self.nside is None` requires (by
`assert`) both `shape` and `wcs` and synthesizes into an `enmap` buffer of
shape `(n_comp,) + shape[-2:]`; `elif self.nside is not None` synthesizes a
HEALPix map; the trailing `else` raises `ValueError`. -/
def PrecomputedAlms.init (ext : Externals) (filename : String)
    (target_nside : Option Nat) (target_shape : Option (List Nat))
    (target_wcs : Option Wcs) (input_units : String)
    (has_polarization : Bool) (pixel_indices : Option (List Nat)) :
    Except InitError PrecomputedAlms :=
  let alm := ext.read_alm filename (if has_polarization then [1, 2, 3] else [1])
  if target_nside.isNone then
    match target_shape, target_wcs with
    | some sh, some _ =>
        let bufShape := nCompOf has_polarization :: sh.drop (sh.length - 2)
        Except.ok
          { nside := target_nside, shape := target_shape, wcs := target_wcs,
            filename := filename, input_units := input_units,
            pixel_indices := pixel_indices, has_polarization := has_polarization,
            output_map := ⟨bufShape, ext.curvedsky_alm2map_data alm bufShape⟩ }
    | _, _ => Except.error InitError.assertionError
  else if h : target_nside.isSome then
    Except.ok
      { nside := target_nside, shape := target_shape, wcs := target_wcs,
        filename := filename, input_units := input_units,
        pixel_indices := pixel_indices, has_polarization := has_polarization,
        output_map := ext.hp_alm2map alm (target_nside.get h) }
  else
    Except.error
      (InitError.valueError "You must specify either nside or both of shape and wcs")

/-- The frequency argument of `signal`: either a single scalar (for which
python's `len(nu)` raises `TypeError` and the code wraps it as `[nu]`) or a
sequence. -/
inductive NuArg where
  | scalar (x : ℚ)
  | seq (xs : List ℚ)
  deriving DecidableEq

/-- The sequence of frequencies after the `try: len(nu) except TypeError`
normalization at the top of `signal`. -/
def NuArg.toList : NuArg → List ℚ
  | .scalar x => [x]
  | .seq xs => xs

/-- pixell's `enmap.enmap(out, wcs)` wraps an existing array with a world
coordinate system without changing its shape or values; our array model
carries no projection metadata, so the re-tagging is the identity on the
modelled array. -/
def enmap_enmap (a : NDArray) (_ : Wcs) : NDArray := a

/-- Python: `if self.wcs is not None: out = enmap.enmap(out, self.wcs)`. -/
def retagIfWcs (o : Option Wcs) (x : NDArray) : NDArray :=
  match o with
  | some w => enmap_enmap x w
  | none => x

/-- `PrecomputedAlms.signal` (pure result): normalize `nu` to a sequence,
tile the cached map once per frequency with `np.tile(out, (nnu, 1, 1))`,
re-tag with the wcs when present, multiply by the conversion factors reshaped
to `(nnu, 1, 1)`, and drop the leading axis when it has length one
(`if len(out) == 1: return out[0]`).  In the source `nu` defaults to `[148.]`
and `output_units` to `"uK_RJ"`; extra keyword arguments are ignored.  `none`
models the numpy broadcasting `ValueError`. -/
def PrecomputedAlms.signalArr (ext : Externals) (s : PrecomputedAlms)
    (nu : NuArg) (output_units : String) : Option NDArray :=
  let nus := nu.toList
  let nnu := nus.length
  let out := retagIfWcs s.wcs (npTile311 s.output_map nnu)
  (broadcastMul311 out (nus.map (ext.convert_units s.input_units output_units))).map
    (fun o => if o.len = 1 then o.first else o)

/-- `PrecomputedAlms.signal` with explicit state passing: the method body
contains no assignment to `self`, so the object comes back unchanged next to
the computed result. -/
def PrecomputedAlms.signal (ext : Externals) (s : PrecomputedAlms)
    (nu : NuArg) (output_units : String) : Option NDArray × PrecomputedAlms :=
  (PrecomputedAlms.signalArr ext s nu output_units, s)

/-- Whether a constructor outcome is the trailing `ValueError`. -/
def initIsValueError (r : Except InitError PrecomputedAlms) : Bool :=
  match r with
  | .error (.valueError _) => true
  | _ => false

/-- The shape of the array returned by a `signal` call, when it returned. -/
def shapeOf (r : Option NDArray) : Option (List Nat) :=
  Option.map NDArray.shape r

/-- Whether a constructor outcome is a successful construction. -/
def initOk (r : Except InitError PrecomputedAlms) : Bool :=
  match r with
  | .ok _ => true
  | .error _ => false

/-- Concrete externals used by the concrete evaluations below: `read_alm`
encodes how many coefficient sets were read, the HEALPix synthesis returns a
map of the documented shape `(nComponents, 12 nside^2)` filled with ones, the
curved-sky synthesis fills its buffer with ones, and the unit conversion
factor is identically 1. -/
def extOne : Externals where
  read_alm := fun _ hdus => ⟨hdus.length⟩
  hp_alm2map := fun alm n => ⟨[alm.id, 12 * n ^ 2], List.replicate (alm.id * (12 * n ^ 2)) 1⟩
  curvedsky_alm2map_data := fun _ sh => List.replicate sh.prod 1
  convert_units := fun _ _ _ => 1

/-- The object constructed by `extOne` with `target_nside = 1` and
polarization. -/
def sHpPol : PrecomputedAlms :=
  { nside := some 1, shape := none, wcs := none, filename := "alms.fits",
    input_units := "uK_RJ", pixel_indices := none, has_polarization := true,
    output_map := extOne.hp_alm2map (extOne.read_alm "alms.fits" [1, 2, 3]) 1 }

/-- As `sHpPol`, but constructed with a `pixel_indices` argument. -/
def sHpPolPix : PrecomputedAlms :=
  { nside := some 1, shape := none, wcs := none, filename := "alms.fits",
    input_units := "uK_RJ", pixel_indices := some [0, 5], has_polarization := true,
    output_map := extOne.hp_alm2map (extOne.read_alm "alms.fits" [1, 2, 3]) 1 }

/-- The object constructed by `extOne` with `target_nside = 1`, intensity
only. -/
def sHpI : PrecomputedAlms :=
  { nside := some 1, shape := none, wcs := none, filename := "alms.fits",
    input_units := "uK_RJ", pixel_indices := none, has_polarization := false,
    output_map := extOne.hp_alm2map (extOne.read_alm "alms.fits" [1]) 1 }

/-- The object constructed by `extOne` with `target_nside = 64`, intensity
only. -/
def sC3W : PrecomputedAlms :=
  { nside := some 64, shape := none, wcs := none, filename := "alms.fits",
    input_units := "uK_RJ", pixel_indices := none, has_polarization := false,
    output_map := extOne.hp_alm2map (extOne.read_alm "alms.fits" [1]) 64 }

/-- The object constructed by `extOne` with rectangular shape `(2, 3)` and
polarization. -/
def sRectPol : PrecomputedAlms :=
  { nside := none, shape := some [2, 3], wcs := some ⟨0⟩, filename := "alms.fits",
    input_units := "uK_RJ", pixel_indices := none, has_polarization := true,
    output_map := ⟨[3, 2, 3],
      extOne.curvedsky_alm2map_data (extOne.read_alm "alms.fits" [1, 2, 3]) [3, 2, 3]⟩ }

/-- The object constructed by `extOne` with rectangular shape `(2, 3)`,
intensity only. -/
def sRectI : PrecomputedAlms :=
  { nside := none, shape := some [2, 3], wcs := some ⟨0⟩, filename := "alms.fits",
    input_units := "uK_RJ", pixel_indices := none, has_polarization := false,
    output_map := ⟨[1, 2, 3],
      extOne.curvedsky_alm2map_data (extOne.read_alm "alms.fits" [1]) [1, 2, 3]⟩ }

/-- The object constructed by `extOne` with rectangular shape `(2, 2)` and
polarization. -/
def sRectPol8 : PrecomputedAlms :=
  { nside := none, shape := some [2, 2], wcs := some ⟨0⟩, filename := "alms.fits",
    input_units := "uK_RJ", pixel_indices := none, has_polarization := true,
    output_map := ⟨[3, 2, 2],
      extOne.curvedsky_alm2map_data (extOne.read_alm "alms.fits" [1, 2, 3]) [3, 2, 2]⟩ }

/-- The object constructed by `extOne` when both grid descriptors are
supplied: the HEALPix branch wins silently. -/
def sBoth : PrecomputedAlms :=
  { nside := some 2, shape := some [2, 3], wcs := some ⟨0⟩, filename := "alms.fits",
    input_units := "uK_RJ", pixel_indices := none, has_polarization := true,
    output_map := extOne.hp_alm2map (extOne.read_alm "alms.fits" [1, 2, 3]) 2 }

/-- A small concrete object with cached map `((3, 5))` of shape `(1, 2)`. -/
def s8W : PrecomputedAlms :=
  { nside := some 1, shape := none, wcs := none, filename := "alms.fits",
    input_units := "uK_RJ", pixel_indices := none, has_polarization := false,
    output_map := ⟨[1, 2], [3, 5]⟩ }

/-- The array `s8W` returns for two frequencies at conversion factor 1. -/
def r8W : NDArray := ⟨[2, 1, 2], [3, 5, 3, 5]⟩

/-- Getting an element below the length of a constant-one list yields 1. -/
lemma getD_replicate_lt (n j : Nat) (h : j < n) :
    (List.replicate n (1 : ℚ)).getD j 0 = 1 := by
  rw [List.getD_eq_getElem?_getD, List.getElem?_replicate, if_pos h]
  rfl

/-- Slice `i` (of the slice size) of `n` concatenated copies of a list is
that list again. -/
lemma take_flatten_replicate (l : List ℚ) (sz n i : Nat) (hl : l.length = sz)
    (hi : i < n) :
    (((List.replicate n l).flatten).drop (i * sz)).take sz = l := by
  induction n generalizing i with
  | zero => exact absurd hi (Nat.not_lt_zero i)
  | succ n ih =>
    rw [List.replicate_succ, List.flatten_cons]
    cases i with
    | zero =>
      rw [Nat.zero_mul, List.drop_zero]
      exact List.take_left' hl
    | succ i =>
      have hsz : (i + 1) * sz = l.length + i * sz := by rw [hl]; ring
      rw [hsz, List.drop_append]
      exact ih i (Nat.lt_of_succ_lt_succ hi)

/-- Concatenating the `m` consecutive slices of size `sz` of a list of length
`m * sz` rebuilds the list. -/
lemma flatten_slices (sz : Nat) : ∀ (m : Nat) (l : List ℚ), l.length = m * sz →
    ((List.range m).map (fun i => (l.drop (i * sz)).take sz)).flatten = l := by
  intro m
  induction m with
  | zero =>
    intro l hl
    simp only [Nat.zero_mul] at hl
    simp [List.eq_nil_of_length_eq_zero hl]
  | succ m ih =>
    intro l hl
    rw [List.range_succ_eq_map, List.map_cons, List.map_map, List.flatten_cons,
      Nat.zero_mul, List.drop_zero]
    have hmap : List.map ((fun i => (l.drop (i * sz)).take sz) ∘ Nat.succ) (List.range m)
        = List.map (fun i => ((l.drop sz).drop (i * sz)).take sz) (List.range m) := by
      refine List.map_congr_left (fun i _ => ?_)
      have : sz + i * sz = (i + 1) * sz := by ring
      simp [Function.comp, List.drop_drop, this, Nat.succ_eq_add_one]
    rw [hmap, ih (l.drop sz) (by rw [List.length_drop, hl]; ring_nf; omega)]
    exact List.take_append_drop sz l

/-- Core computation of `signal` with an all-ones conversion factor:
multiplying the `n`-fold tiling of flat data `dat` (with padded shape
`(n p0, p1, p2)`) by an all-ones factor of length `n` either fails numpy
broadcasting or, after the final length-one leading-axis dispatch, returns
flat data equal to the `n` concatenated copies of `dat`. -/
lemma mul_ones_tile (p0 p1 p2 n : Nat) (dat : List ℚ) (o : NDArray)
    (hlen : dat.length = p0 * (p1 * p2))
    (h : broadcastMul311 ⟨[n * p0, p1, p2], (List.replicate n dat).flatten⟩
          (List.replicate n (1 : ℚ)) = some o) :
    (if o.len = 1 then o.first else o).data = (List.replicate n dat).flatten := by
  simp only [broadcastMul311, List.length_replicate] at h
  split at h
  case isFalse => exact absurd h (by simp)
  case isTrue gcond =>
    rw [Option.some.injEq] at h
    subst h
    rcases Nat.eq_zero_or_pos n with hn0 | hnpos
    · subst hn0
      simp [NDArray.len, NDArray.first]
    · by_cases hp0 : p0 = 1
      · subst hp0
        have hdat : dat.length = p1 * p2 := by simpa using hlen
        have hD : ∀ i ∈ List.range n,
            ((((List.replicate n dat).flatten).drop
                ((if n = 1 then 0 else i) * (p1 * p2))).take (p1 * p2)).map
              (fun x => x * (List.replicate n (1 : ℚ)).getD (if n = 1 then 0 else i) 0)
            = dat := by
          intro i hi
          have hi' : i < n := List.mem_range.mp hi
          have hidx1 : (if n = 1 then 0 else i) < n := by
            split
            · omega
            · exact hi'
          rw [getD_replicate_lt n _ hidx1]
          simp only [mul_one, List.map_id']
          exact take_flatten_replicate dat (p1 * p2) n _ hdat hidx1
        simp only [mul_one, eq_self_iff_true, if_true] at *
        rw [List.map_congr_left hD, List.map_const', List.length_range]
        by_cases hn1 : n = 1
        · subst hn1
          simp [NDArray.len, NDArray.first, NDArray.sliceSize, ← hdat]
        · simp [NDArray.len, hn1]
      · have hn1 : n = 1 := by
          rcases gcond with hg | hg | hg
          · exact absurd (Nat.eq_of_mul_eq_mul_left hnpos (by rw [mul_one]; exact hg)) hp0
          · exact absurd (mul_eq_one.mp hg).2 hp0
          · exact hg
        subst hn1
        have hget : (List.replicate 1 (1 : ℚ)).getD 0 0 = 1 := getD_replicate_lt 1 0 (by omega)
        simp only [one_mul, hp0, hget, mul_one, List.map_id', eq_self_iff_true, if_true,
          if_false, ite_false]
        have hA : (List.replicate 1 dat).flatten = dat := by simp
        rw [hA, flatten_slices (p1 * p2) p0 dat hlen]
        simp [NDArray.len, hp0]

/-- Re-tagging with an optional wcs never changes the modelled array. -/
lemma retagIfWcs_eq (o : Option Wcs) (x : NDArray) : retagIfWcs o x = x := by
  cases o <;> rfl

/-- Tiling a zero-dimensional array. -/
lemma npTile311_shape0 (d : List ℚ) (n : Nat) :
    npTile311 ⟨[], d⟩ n = ⟨[n * 1, 1, 1], (List.replicate n d).flatten⟩ := rfl

/-- Tiling a one-dimensional array. -/
lemma npTile311_shape1 (a : Nat) (d : List ℚ) (n : Nat) :
    npTile311 ⟨[a], d⟩ n = ⟨[n * 1, 1, a], (List.replicate n d).flatten⟩ := rfl

/-- Tiling a two-dimensional array. -/
lemma npTile311_shape2 (a b : Nat) (d : List ℚ) (n : Nat) :
    npTile311 ⟨[a, b], d⟩ n = ⟨[n * 1, a, b], (List.replicate n d).flatten⟩ := rfl

/-- Tiling a three-dimensional array multiplies the leading axis. -/
lemma npTile311_shape3 (a b c : Nat) (d : List ℚ) (n : Nat) :
    npTile311 ⟨[a, b, c], d⟩ n = ⟨[n * a, b, c], (List.replicate n d).flatten⟩ := rfl

/-- The shape of a compatible broadcast product is determined by the two
leading axes alone. -/
lemma broadcastMul311_shape (d0 d1 d2 : Nat) (dt : List ℚ) (f : List ℚ)
    (hcomp : d0 = f.length ∨ d0 = 1 ∨ f.length = 1) :
    ∃ D, broadcastMul311 ⟨[d0, d1, d2], dt⟩ f
      = some ⟨[if d0 = f.length then d0 else if d0 = 1 then f.length else d0, d1, d2], D⟩ := by
  simp only [broadcastMul311, if_pos hcomp]
  exact ⟨_, rfl⟩

/-- C1 (failing input): for a rectangular polarized map, `signal` with two
frequencies does not return the cached map scaled by the conversion factor:
`np.tile` turns the `(3, 2, 3)` cached map into `(6, 2, 3)`, which cannot
broadcast against the `(2, 1, 1)` factor, so the call raises numpy's
broadcasting `ValueError` instead of returning an array. -/
theorem signal_rect_pol_multifreq_raises :
    PrecomputedAlms.init extOne "alms.fits" none (some [2, 3]) (some ⟨0⟩) "uK_RJ" true none
      = Except.ok sRectPol ∧
    PrecomputedAlms.signalArr extOne sRectPol (NuArg.seq [100, 150]) "uK_RJ" = none :=
  ⟨rfl, by decide⟩

/-- C2 (counterexample): constructing with both the HEALPix and the
rectangular grid descriptors does not raise a construction error; the code
silently proceeds through the HEALPix branch. -/
theorem init_both_descriptors_succeeds :
    PrecomputedAlms.init extOne "alms.fits" (some 2) (some [2, 3]) (some ⟨0⟩) "uK_RJ" true none
      = Except.ok sBoth := rfl

/-- C2 (amended): constructing with `target_nside` absent and `shape` or
`wcs` absent raises the assertion (configuration) error, while constructing
with both descriptors supplied succeeds silently via the HEALPix branch. -/
theorem init_grid_dispatch (ext : Externals) (f u : String) (pol : Bool)
    (pix : Option (List Nat)) (ts : Option (List Nat)) (tw : Option Wcs)
    (n : Nat) (sh : List Nat) (w : Wcs)
    (hmiss : ts.isNone ∨ tw.isNone) :
    PrecomputedAlms.init ext f none ts tw u pol pix
      = Except.error InitError.assertionError ∧
    initOk (PrecomputedAlms.init ext f (some n) (some sh) (some w) u pol pix) = true := by
  constructor
  · rcases hmiss with h | h
    · rw [Option.isNone_iff_eq_none] at h
      subst h
      cases tw <;> rfl
    · rw [Option.isNone_iff_eq_none] at h
      subst h
      cases ts <;> rfl
  · rfl

/-- C2 (witness): the amended dispatch behaviour at concrete arguments. -/
theorem init_grid_dispatch_witness :
    ((none : Option (List Nat)).isNone = true ∨ (some (⟨0⟩ : Wcs)).isNone = true) ∧
    (PrecomputedAlms.init extOne "alms.fits" none none (some ⟨0⟩) "uK_RJ" true none
        = Except.error InitError.assertionError ∧
      initOk (PrecomputedAlms.init extOne "alms.fits" (some 2) (some [2, 3]) (some ⟨0⟩)
          "uK_RJ" true none) = true) := by
  refine ⟨Or.inl rfl, ?_⟩
  exact init_grid_dispatch extOne "alms.fits" "uK_RJ" true none none (some ⟨0⟩)
    2 [2, 3] ⟨0⟩ (Or.inl rfl)

/-- C3: constructing with only `target_nside` stores the HEALPix synthesis
result unchanged, so under the documented contract that the synthesis returns
shape `(nComponents, 12 nside^2)`, the cached map has exactly that shape. -/
theorem init_nside_output_map_shape (ext : Externals) (f u : String) (n : Nat)
    (pol : Bool) (pix : Option (List Nat)) (s : PrecomputedAlms)
    (hsyn : (ext.hp_alm2map (ext.read_alm f (if pol then [1, 2, 3] else [1])) n).shape
      = [nCompOf pol, 12 * n ^ 2])
    (hinit : PrecomputedAlms.init ext f (some n) none none u pol pix = Except.ok s) :
    s.output_map.shape = [nCompOf pol, 12 * n ^ 2] := by
  simp only [PrecomputedAlms.init, Option.isNone_some, Bool.false_eq_true, if_false,
    Option.isSome_some, dif_pos, Option.get_some, Except.ok.injEq] at hinit
  subst hinit
  exact hsyn

/-- C3 (witness): with `has_polarization = false` and `target_nside = 64` the
cached map has shape `(1, 49152)`. -/
theorem init_nside_output_map_shape_witness :
    (extOne.hp_alm2map (extOne.read_alm "alms.fits" [1]) 64).shape
      = [nCompOf false, 12 * 64 ^ 2] ∧
    PrecomputedAlms.init extOne "alms.fits" (some 64) none none "uK_RJ" false none
      = Except.ok sC3W ∧
    sC3W.output_map.shape = [1, 49152] := by
  refine ⟨rfl, rfl, ?_⟩
  have h := init_nside_output_map_shape extOne "alms.fits" "uK_RJ" 64 false none sC3W rfl rfl
  have h2 : [nCompOf false, 12 * 64 ^ 2] = [1, 49152] := by norm_num [nCompOf]
  rw [h2] at h
  exact h

/-- C4 (counterexample): on a HEALPix object, `signal` with the length-one
frequency sequence `((148))` (so K = 1) returns a two-dimensional
`(nComponents, nPix)` array, not the three-dimensional
`(K, nComponents, nPix)` array the claim asserts for every K of at least
one. -/
theorem signal_seq_one_returns_2d :
    PrecomputedAlms.init extOne "alms.fits" (some 1) none none "uK_RJ" false none
      = Except.ok sHpI ∧
    shapeOf (PrecomputedAlms.signalArr extOne sHpI (NuArg.seq [148]) "uK_RJ")
      = some [1, 12] ∧
    (shapeOf (PrecomputedAlms.signalArr extOne sHpI (NuArg.seq [148]) "uK_RJ")
        == some [1, 1, 12]) = false :=
  ⟨rfl, by decide, by decide⟩

/-- C4 (amended): for an object constructed via `target_nside` (under the
documented synthesis shape contract), `signal` with a scalar frequency
returns a 2-D `(nComponents, nPix)` array and with a sequence of K of at
least 2 frequencies a 3-D `(K, nComponents, nPix)` array; a length-one
sequence is treated like a scalar. -/
theorem signal_healpix_shapes (ext : Externals) (f u ou : String) (n : Nat)
    (pol : Bool) (pix : Option (List Nat)) (s : PrecomputedAlms)
    (x : ℚ) (ks : List ℚ)
    (hsyn : (ext.hp_alm2map (ext.read_alm f (if pol then [1, 2, 3] else [1])) n).shape
      = [nCompOf pol, 12 * n ^ 2])
    (hinit : PrecomputedAlms.init ext f (some n) none none u pol pix = Except.ok s)
    (hk : 2 ≤ ks.length) :
    shapeOf (PrecomputedAlms.signalArr ext s (NuArg.scalar x) ou)
      = some [nCompOf pol, 12 * n ^ 2] ∧
    shapeOf (PrecomputedAlms.signalArr ext s (NuArg.seq ks) ou)
      = some [ks.length, nCompOf pol, 12 * n ^ 2] := by
  simp only [PrecomputedAlms.init, Option.isNone_some, Bool.false_eq_true, if_false,
    Option.isSome_some, dif_pos, Option.get_some, Except.ok.injEq] at hinit
  subst hinit
  set E := ext.hp_alm2map (ext.read_alm f (if pol then [1, 2, 3] else [1])) n with hEdef
  clear_value E
  obtain ⟨Es, Ed⟩ := E
  simp only at hsyn
  subst hsyn
  constructor
  · simp only [PrecomputedAlms.signalArr, NuArg.toList, retagIfWcs_eq,
      List.length_cons, List.length_nil, npTile311_shape2]
    obtain ⟨D, hD⟩ := broadcastMul311_shape (1 * 1) (nCompOf pol) (12 * n ^ 2) _ _
      (Or.inr (Or.inl (mul_one 1)))
    rw [hD]
    simp [shapeOf, NDArray.len, NDArray.first]
  · simp only [PrecomputedAlms.signalArr, NuArg.toList, retagIfWcs_eq,
      npTile311_shape2]
    obtain ⟨D, hD⟩ := broadcastMul311_shape (ks.length * 1) (nCompOf pol) (12 * n ^ 2) _
      (ks.map (ext.convert_units u ou))
      (Or.inl (by rw [mul_one, List.length_map]))
    rw [List.length_map] at hD
    rw [hD]
    have hne : ¬ (ks.length * 1 = 1) := by omega
    have hne' : ¬ (ks.length = 1) := by omega
    simp [shapeOf, NDArray.len, NDArray.first, hne, hne', mul_one]

/-- C4 (witness): the amended shapes at concrete arguments. -/
theorem signal_healpix_shapes_witness :
    (extOne.hp_alm2map (extOne.read_alm "alms.fits" [1, 2, 3]) 1).shape
      = [nCompOf true, 12 * 1 ^ 2] ∧
    PrecomputedAlms.init extOne "alms.fits" (some 1) none none "uK_RJ" true none
      = Except.ok sHpPol ∧
    2 ≤ ([100, 150] : List ℚ).length ∧
    (shapeOf (PrecomputedAlms.signalArr extOne sHpPol (NuArg.scalar 148) "K_CMB")
        = some [nCompOf true, 12 * 1 ^ 2] ∧
      shapeOf (PrecomputedAlms.signalArr extOne sHpPol (NuArg.seq [100, 150]) "K_CMB")
        = some [([100, 150] : List ℚ).length, nCompOf true, 12 * 1 ^ 2]) := by
  refine ⟨rfl, rfl, by decide, ?_⟩
  exact signal_healpix_shapes extOne "alms.fits" "uK_RJ" "K_CMB" 1 true none sHpPol
    148 [100, 150] rfl rfl (by decide)

/-- C5 (failing input): for a rectangular non-polarized map the cached map is
three-dimensional `(1, 2, 3)`, so with N = 1 the final `len(out) == 1`
dispatch fires on the component axis and `signal` returns shape `(2, 3)`,
dropping the component axis, instead of the single
`(nComponents, spatial)` slice `(1, 2, 3)` the claim describes. -/
theorem signal_rect_nopol_drops_component_axis :
    PrecomputedAlms.init extOne "alms.fits" none (some [2, 3]) (some ⟨0⟩) "uK_RJ" false none
      = Except.ok sRectI ∧
    shapeOf (PrecomputedAlms.signalArr extOne sRectI (NuArg.scalar 148) "uK_RJ")
      = some [2, 3] ∧
    (shapeOf (PrecomputedAlms.signalArr extOne sRectI (NuArg.scalar 148) "uK_RJ")
        == some [nCompOf false, 2, 3]) = false :=
  ⟨rfl, by decide, by decide⟩

/-- C6: `signal` contains no assignment to the object, so the state-passing
embedding returns the object unchanged: the cached map (and every other
field) is never mutated by any `signal` call. -/
theorem signal_preserves_state (ext : Externals) (s : PrecomputedAlms)
    (nu : NuArg) (ou : String) :
    (PrecomputedAlms.signal ext s nu ou).2 = s := rfl

/-- C7: two consecutive `signal` calls with identical arguments return
identical results, and leave the object as it started, so any number of
repetitions in any order returns the same array. -/
theorem signal_repeat_identical (ext : Externals) (s : PrecomputedAlms)
    (nu : NuArg) (ou : String) :
    (PrecomputedAlms.signal ext ((PrecomputedAlms.signal ext s nu ou).2) nu ou).1
      = (PrecomputedAlms.signal ext s nu ou).1 ∧
    (PrecomputedAlms.signal ext ((PrecomputedAlms.signal ext s nu ou).2) nu ou).2 = s :=
  ⟨rfl, rfl⟩

/-- C8 (counterexample): with output units equal to the input units and a
conversion factor identically 1, `signal` on a rectangular polarized map with
two frequencies returns no array at all (the tiled `(6, 2, 2)` map cannot
broadcast against the `(2, 1, 1)` factor), so it does not return values equal
to the cached map. -/
theorem signal_identity_units_rect_pol_fails :
    PrecomputedAlms.init extOne "alms.fits" none (some [2, 2]) (some ⟨0⟩) "uK_RJ" true none
      = Except.ok sRectPol8 ∧
    (NuArg.seq [90, 95]).toList.map (extOne.convert_units sRectPol8.input_units "uK_RJ")
      = List.replicate (NuArg.seq [90, 95]).toList.length 1 ∧
    PrecomputedAlms.signalArr extOne sRectPol8 (NuArg.seq [90, 95]) "uK_RJ" = none :=
  ⟨rfl, by decide, by decide⟩

/-- C8 (amended): whenever the conversion factors are all 1 (as when output
units equal input units) and the `signal` call returns an array at all, that
array's values are exactly the cached map's values, replicated once per
requested frequency. -/
theorem signal_ones_factor_returns_cached (ext : Externals) (s : PrecomputedAlms)
    (nu : NuArg) (ou : String) (r : NDArray)
    (hwf : s.output_map.data.length = s.output_map.shape.prod)
    (hnd : s.output_map.shape.length ≤ 3)
    (hconv : nu.toList.map (ext.convert_units s.input_units ou)
      = List.replicate nu.toList.length 1)
    (hr : PrecomputedAlms.signalArr ext s nu ou = some r) :
    r.data = (List.replicate nu.toList.length s.output_map.data).flatten := by
  rcases s with ⟨ns, tsh, tw, fn, iu, pix, pol, ⟨sh, dat⟩⟩
  simp only at hwf hnd hconv ⊢
  simp only [PrecomputedAlms.signalArr, retagIfWcs_eq, hconv] at hr
  rcases sh with _ | ⟨d0, _ | ⟨d1, _ | ⟨d2, _ | ⟨d3, tl⟩⟩⟩⟩
  · rw [npTile311_shape0] at hr
    obtain ⟨o, heq, hro⟩ := Option.map_eq_some'.mp hr
    have hdata := mul_ones_tile 1 1 1 nu.toList.length dat o (by simpa using hwf) heq
    rw [hro] at hdata
    exact hdata
  · rw [npTile311_shape1] at hr
    obtain ⟨o, heq, hro⟩ := Option.map_eq_some'.mp hr
    have hdata := mul_ones_tile 1 1 d0 nu.toList.length dat o (by simpa using hwf) heq
    rw [hro] at hdata
    exact hdata
  · rw [npTile311_shape2] at hr
    obtain ⟨o, heq, hro⟩ := Option.map_eq_some'.mp hr
    have hdata := mul_ones_tile 1 d0 d1 nu.toList.length dat o (by simpa using hwf) heq
    rw [hro] at hdata
    exact hdata
  · rw [npTile311_shape3] at hr
    obtain ⟨o, heq, hro⟩ := Option.map_eq_some'.mp hr
    have hdata := mul_ones_tile d0 d1 d2 nu.toList.length dat o (by simpa using hwf) heq
    rw [hro] at hdata
    exact hdata
  · simp at hnd

/-- C8 (witness): on a concrete map of shape `(1, 2)` with data `((3, 5))`
and two frequencies at factor 1, the returned data is the cached data twice
over. -/
theorem signal_ones_factor_returns_cached_witness :
    s8W.output_map.data.length = s8W.output_map.shape.prod ∧
    s8W.output_map.shape.length ≤ 3 ∧
    (NuArg.seq [10, 20]).toList.map (extOne.convert_units s8W.input_units "uK_RJ")
      = List.replicate (NuArg.seq [10, 20]).toList.length 1 ∧
    PrecomputedAlms.signalArr extOne s8W (NuArg.seq [10, 20]) "uK_RJ" = some r8W ∧
    r8W.data = (List.replicate (NuArg.seq [10, 20]).toList.length s8W.output_map.data).flatten := by
  have hr : PrecomputedAlms.signalArr extOne s8W (NuArg.seq [10, 20]) "uK_RJ" = some r8W := by
    simp [PrecomputedAlms.signalArr, npTile311, broadcastMul311, retagIfWcs, NDArray.len,
      NDArray.first, NDArray.sliceSize, NuArg.toList, s8W, extOne, r8W, List.getD,
      List.range_succ, mul_one]
  refine ⟨by decide, by decide, by decide, hr, ?_⟩
  exact signal_ones_factor_returns_cached extOne s8W (NuArg.seq [10, 20]) "uK_RJ" r8W
    (by decide) (by decide) (by decide) hr

/-- C9: two constructions differing only in `pixel_indices` cache the same
map and give identical `signal` results: the parameter is stored but never
read again. -/
theorem pixel_indices_inert (ext : Externals) (f u : String) (ns : Option Nat)
    (ts : Option (List Nat)) (tw : Option Wcs) (pol : Bool)
    (px1 px2 : Option (List Nat)) (s1 s2 : PrecomputedAlms)
    (nu : NuArg) (ou : String)
    (h1 : PrecomputedAlms.init ext f ns ts tw u pol px1 = Except.ok s1)
    (h2 : PrecomputedAlms.init ext f ns ts tw u pol px2 = Except.ok s2) :
    s1.output_map = s2.output_map ∧
    PrecomputedAlms.signalArr ext s1 nu ou = PrecomputedAlms.signalArr ext s2 nu ou := by
  cases ns with
  | some n =>
    simp only [PrecomputedAlms.init, Option.isNone_some, Bool.false_eq_true, if_false,
      Option.isSome_some, dif_pos, Option.get_some, Except.ok.injEq] at h1 h2
    subst h1
    subst h2
    exact ⟨rfl, rfl⟩
  | none =>
    cases ts with
    | none => simp [PrecomputedAlms.init] at h1
    | some sh =>
      cases tw with
      | none => simp [PrecomputedAlms.init] at h1
      | some w =>
        simp only [PrecomputedAlms.init, Option.isNone_none, if_true, Except.ok.injEq] at h1 h2
        subst h1
        subst h2
        exact ⟨rfl, rfl⟩

/-- C9 (witness): at concrete arguments, adding a `pixel_indices` list does
not change the cached map or the `signal` result. -/
theorem pixel_indices_inert_witness :
    PrecomputedAlms.init extOne "alms.fits" (some 1) none none "uK_RJ" true none
      = Except.ok sHpPol ∧
    PrecomputedAlms.init extOne "alms.fits" (some 1) none none "uK_RJ" true (some [0, 5])
      = Except.ok sHpPolPix ∧
    (sHpPol.output_map = sHpPolPix.output_map ∧
      PrecomputedAlms.signalArr extOne sHpPol (NuArg.scalar 100) "uK_RJ"
        = PrecomputedAlms.signalArr extOne sHpPolPix (NuArg.scalar 100) "uK_RJ") := by
  refine ⟨rfl, rfl, ?_⟩
  exact pixel_indices_inert extOne "alms.fits" "uK_RJ" (some 1) none none true none
    (some [0, 5]) sHpPol sHpPolPix (NuArg.scalar 100) "uK_RJ" rfl rfl

/-- C10: the trailing `ValueError` branch of the constructor is dead code:
the `if nside is None` / `elif nside is not None` dispatch is exhaustive, so
no input ever reaches the final `else`. -/
theorem init_value_error_unreachable (ext : Externals) (f : String)
    (ns : Option Nat) (ts : Option (List Nat)) (tw : Option Wcs) (u : String)
    (pol : Bool) (pix : Option (List Nat)) :
    initIsValueError (PrecomputedAlms.init ext f ns ts tw u pol pix) = false := by
  cases ns <;> cases ts <;> cases tw <;>
    simp [PrecomputedAlms.init, initIsValueError]
